import Mathlib

/-!
Verification of the local game-server provisioning and supervision engine of
the KonoTyran/Archipelago Minecraft clients.  The definitions below are a
shallow embedding of the Python sources:

* `src/worlds/minecraft_fabric/client/MinecraftClient.py`  (the "fabric" variant)
* `src/worlds/mcfabric/client/MinecraftClient.py`          (the "mcfabric" variant)
* `src/worlds/minecraft/Client.py`                         (the "minecraft" variant)

Strings from the child process are modelled as `List Char`; raw file contents
(session files, base64 payloads) are modelled as `List Nat` byte sequences.
-/

/-! ## ServerStatus (fabric `ServerStatus`, lines 79-91; identical in mcfabric) -/

/-- `class ServerStatus(Enum): STOPPED = 0; STARTING = 1; RUNNING = 2`. -/
inductive ServerStatus where
  | stopped
  | starting
  | running
deriving DecidableEq, Repr

/-- The `Enum` numeric value of a `ServerStatus`. -/
def ServerStatus.value : ServerStatus → Nat
  | .stopped => 0
  | .starting => 1
  | .running => 2

/-- `ServerStatus.__lt__`: comparison of the numeric values. -/
def ServerStatus.ltb (a b : ServerStatus) : Bool :=
  a.value < b.value

/-! ## Log-line pattern matching (fabric `server_thread`, lines 594-624)

The Python code uses `re.match`, i.e. the pattern must match a prefix of the
line.  The two status-trigger patterns are

  `^\[[0-9:]+] \[main/INFO]: Loading Minecraft ([0-9.]+)`
  `^\[[0-9:]+] \[Server thread/INFO]: Done \([0-9.]+s\)! For help, type "help"`

Each `+`-repetition of a character class is immediately followed by a literal
character that is not in the class, so greedy matching without backtracking is
equivalent to the regex semantics. -/

/-- Character class `[0-9:]`. -/
def isTimeChar (c : Char) : Bool :=
  ('0' ≤ c && c ≤ '9') || c = ':'

/-- Character class `[0-9.]`. -/
def isVerChar (c : Char) : Bool :=
  ('0' ≤ c && c ≤ '9') || c = '.'

/-- Consume one-or-more characters of class `p` (greedy), returning the rest. -/
def takeClass1 (p : Char → Bool) : List Char → Option (List Char)
  | [] => none
  | c :: cs => if p c then some (cs.dropWhile p) else none

/-- Consume an exact literal, returning the rest of the input. -/
def expectLit : List Char → List Char → Option (List Char)
  | [], rest => some rest
  | _ :: _, [] => none
  | a :: as, c :: cs => if c = a then expectLit as cs else none

/-- Literal segment of the "Loading Minecraft" pattern after the timestamp. -/
def loadingLit : List Char := "] [main/INFO]: Loading Minecraft ".data

/-- Literal segment of the "Done" pattern after the timestamp. -/
def doneLit : List Char := "] [Server thread/INFO]: Done (".data

/-- Literal tail of the "Done" pattern after the seconds figure. -/
def doneTailLit : List Char := "s)! For help, type \"help\"".data

/-- `re.match("^\[[0-9:]+] \[main/INFO]: Loading Minecraft ([0-9.]+)", line)`
succeeds. -/
def matchLoading (l : List Char) : Bool :=
  ((((expectLit ['['] l).bind (takeClass1 isTimeChar)).bind
      (expectLit loadingLit)).bind (takeClass1 isVerChar)).isSome

/-- `re.match("^\[[0-9:]+] \[Server thread/INFO]: Done \([0-9.]+s\)! For help,
type \"help\"", line)` succeeds. -/
def matchDone (l : List Char) : Bool :=
  (((((expectLit ['['] l).bind (takeClass1 isTimeChar)).bind
      (expectLit doneLit)).bind (takeClass1 isVerChar)).bind
      (expectLit doneTailLit)).isSome

/-- One iteration of the status-transition block of `server_thread`
(fabric lines 608-624): both trigger patterns are tested only while
`self.status < ServerStatus.RUNNING`; a "Loading Minecraft" match sets
`STARTING`, a "Done (...)!" match sets `RUNNING`. -/
def statusStep (st : ServerStatus) (line : List Char) : ServerStatus :=
  if st.ltb .running then
    let st1 := if matchLoading line then ServerStatus.starting else st
    if matchDone line then ServerStatus.running else st1
  else st

/-! ## Process-exit detection in the supervision loop

fabric `server_thread` lines 584-589 and mcfabric `server_thread` lines
449-453: when `self.server.poll()` returns an exit code the loop logs
"Minecraft server has exited.", sets the `stop` event and (fabric only)
rewrites the window status label; the `self.status` field is not assigned. -/

/-- Supervision-loop state touched by the exit-detection branch. -/
structure SuperviseState where
  status : ServerStatus
  stopSet : Bool
  statusLabel : List Char
  events : List (List Char)
deriving DecidableEq, Repr

/-- fabric `server_thread` lines 584-589: the body of
`if self.server.poll() is not None:`. -/
def pollStep (s : SuperviseState) (exited : Bool) : SuperviseState :=
  if exited then
    { s with
      events := "Minecraft server has exited.".data :: s.events
      stopSet := true
      statusLabel := "Server Stopped".data }
  else s

/-- mcfabric `server_thread` lines 449-453: same branch, without the label
update. -/
def pollStepMcfabric (s : SuperviseState) (exited : Bool) : SuperviseState :=
  if exited then
    { s with
      events := "Minecraft server has exited.".data :: s.events
      stopSet := true }
  else s

/-- fabric `server_thread` line 553: `self.status = ServerStatus.STOPPED` at
the start of a new server thread. -/
def serverThreadInitStatus : ServerStatus := .stopped

/-! ## Lemmas about the matchers -/

theorem expectLit_eq_append :
    ∀ (lit l r : List Char), expectLit lit l = some r → l = lit ++ r := by
  intro lit
  induction lit with
  | nil =>
    intro l r h
    simp only [expectLit, Option.some.injEq] at h
    simp [h]
  | cons a as ih =>
    intro l r h
    cases l with
    | nil => simp [expectLit] at h
    | cons c cs =>
      simp only [expectLit] at h
      by_cases hc : c = a
      · simp only [hc, if_pos rfl] at h
        have := ih cs r h
        simp [hc, this]
      · simp [hc] at h

theorem loading_done_disjoint (r : List Char) :
    (expectLit loadingLit r).isSome → (expectLit doneLit r).isSome → False := by
  intro h1 h2
  obtain ⟨r3, h3⟩ := Option.isSome_iff_exists.mp h1
  obtain ⟨r4, h4⟩ := Option.isSome_iff_exists.mp h2
  have e1 := expectLit_eq_append _ _ _ h3
  have e2 := expectLit_eq_append _ _ _ h4
  rw [e1] at e2
  have g1 : (loadingLit ++ r3)[3]? = some 'm' := rfl
  have g2 : (doneLit ++ r4)[3]? = some 'S' := rfl
  rw [e2, g2] at g1
  simp at g1

theorem matchLoading_not_matchDone (l : List Char) (h : matchLoading l = true) :
    matchDone l = false := by
  unfold matchLoading at h
  unfold matchDone
  cases h1 : expectLit ['['] l with
  | none => simp [h1] at h
  | some r1 =>
    simp only [h1, Option.some_bind] at h ⊢
    cases h2 : takeClass1 isTimeChar r1 with
    | none => simp [h2] at h
    | some r2 =>
      simp only [h2, Option.some_bind] at h ⊢
      cases h3 : expectLit loadingLit r2 with
      | none => simp [h3] at h
      | some r3 =>
        have h4 : expectLit doneLit r2 = none := by
          cases h4 : expectLit doneLit r2 with
          | none => rfl
          | some r4 =>
            exact (loading_done_disjoint r2 (by simp [h3]) (by simp [h4])).elim
        simp [h4]

/-- C1: while `ServerStatus` is below `RUNNING`, a line matching the
"Loading Minecraft" pattern sets the status to `STARTING` and a line matching
the "Done (...s)! For help" pattern sets it to `RUNNING`; once the status is
`RUNNING` processing any line leaves it unchanged, and the step never
decreases the status along `STOPPED < STARTING < RUNNING`. -/
theorem statusStep_triggers_and_monotone :
    (∀ (st : ServerStatus) (line : List Char),
        st.ltb .running = true → matchLoading line = true →
        statusStep st line = .starting) ∧
    (∀ (st : ServerStatus) (line : List Char),
        st.ltb .running = true → matchDone line = true →
        statusStep st line = .running) ∧
    (∀ line : List Char, statusStep .running line = .running) ∧
    (∀ (st : ServerStatus) (line : List Char),
        st.value ≤ (statusStep st line).value) := by
  refine ⟨?_, ?_, ?_, ?_⟩
  · intro st line hlt hm
    simp [statusStep, hlt, hm, matchLoading_not_matchDone line hm]
  · intro st line hlt hm
    simp [statusStep, hlt, hm]
  · intro line
    rfl
  · intro st line
    cases st <;> by_cases hd : matchDone line <;> by_cases hl : matchLoading line <;>
      simp [statusStep, ServerStatus.ltb, ServerStatus.value, hd, hl]

/-- Concrete "Loading Minecraft" line from the specification scenario. -/
def loadingLineEx : List Char :=
  "[12:00:00] [main/INFO]: Loading Minecraft 1.18.2".data

/-- Concrete "Done" line from the specification scenario. -/
def doneLineEx : List Char :=
  "[12:00:05] [Server thread/INFO]: Done (3.2s)! For help, type \"help\"".data

/-- Witness for C1 at the specification's concrete log lines. -/
theorem statusStep_triggers_and_monotone_witness :
    statusStep .stopped loadingLineEx = .starting ∧
    statusStep .starting doneLineEx = .running :=
  ⟨statusStep_triggers_and_monotone.1 .stopped loadingLineEx (by decide) (by decide),
   statusStep_triggers_and_monotone.2.1 .starting doneLineEx (by decide) (by decide)⟩

/-- C2 counterexample: detecting process exit while the status is `RUNNING`
leaves the `ServerStatus` field at `RUNNING`; it is not forced to `STOPPED`. -/
theorem pollStep_exit_keeps_status_counterexample :
    (pollStep ⟨.running, false, [], []⟩ true).status = .running ∧
    ServerStatus.running ≠ ServerStatus.stopped := by
  exact ⟨rfl, by decide⟩

/-- C2 (amended): when the supervision loop detects that the child process
has exited it reports the "Minecraft server has exited." event, sets the stop
flag (ending supervision) and, in the fabric variant, sets the UI status
label to "Server Stopped"; the `ServerStatus` field itself is left unchanged
in both variants, and is reset to `STOPPED` only when a new server thread
starts. -/
theorem pollStep_exit_event_and_status :
    (∀ s : SuperviseState,
        (pollStep s true).events = "Minecraft server has exited.".data :: s.events ∧
        (pollStep s true).stopSet = true ∧
        (pollStep s true).statusLabel = "Server Stopped".data ∧
        (pollStep s true).status = s.status) ∧
    (∀ s : SuperviseState, pollStep s false = s) ∧
    (∀ s : SuperviseState,
        (pollStepMcfabric s true).events = "Minecraft server has exited.".data :: s.events ∧
        (pollStepMcfabric s true).stopSet = true ∧
        (pollStepMcfabric s true).status = s.status) ∧
    serverThreadInitStatus = .stopped := by
  refine ⟨fun s => ?_, fun s => rfl, fun s => ?_, rfl⟩ <;>
    simp [pollStep, pollStepMcfabric]

/-! ## Dependency resolution (fabric `start_server`, lines 435-514)

`start_server` is a sequence of checks; each failing check triggers exactly
one remedial action and returns, and a re-invocation re-runs the sequence
from the top.  The state a pass consults:

* `check_mods` (lines 517-518): `self.mod_info.get("mod_list_version") ==
  self.version["mod_list_version"]`;
* `get_jdk` (lines 280-298): whether a runtime executable is present;
* `get_server_jar` (lines 319-325): whether the versioned server jar exists;
* `self.apmc.get("description")`;
* `check_eula` (lines 300-314): reads `eula.txt`, writing the default
  `eula=false` template when no `eula=` line is present. -/

/-- Reachable contents of `eula.txt` as far as `check_eula` distinguishes
them: no `eula=` line at all (including a missing/empty file, since `a+`
creates it), a line that is not `eula=true`, or `eula=true`. -/
inductive EulaState where
  | noLine
  | lineFalse
  | lineTrue
deriving DecidableEq, Repr

/-- fabric `check_eula`: returns whether the EULA is accepted and the file
contents after the call (the default template is written when no `eula=`
line exists). -/
def check_eula : EulaState → Bool × EulaState
  | .noLine => (false, .lineFalse)
  | .lineFalse => (false, .lineFalse)
  | .lineTrue => (true, .lineTrue)

/-- The facts on disk (and in the loaded records) that one `start_server`
pass consults. -/
structure InstallState where
  modInfoId : Option String
  versionModId : String
  jdkFound : Bool
  serverJarFound : Bool
  description : Option String
  eula : EulaState
deriving DecidableEq, Repr

/-- fabric `check_mods` (lines 517-518). -/
def check_mods (s : InstallState) : Bool :=
  s.modInfoId = some s.versionModId

/-- The single remedial action a `start_server` pass takes (or `launch`). -/
inductive StartAction where
  | promptModUpdate
  | downloadJdk
  | downloadJar
  | deadModCheck
  | promptDescription
  | promptEula
  | launch
deriving DecidableEq, Repr

/-- Number of downloads one pass itself performs for each action.  The mod
update prompt performs none until the user confirms; the description and
EULA prompts perform none at all. -/
def downloadsOf : StartAction → Nat
  | .downloadJdk => 1
  | .downloadJar => 1
  | _ => 0

/-- One pass of fabric `start_server` (lines 435-514): the if-chain of
checks, returning the action taken and the state after the pass.  The pass
itself modifies the filesystem only through `check_eula` writing the default
template. -/
def start_server (s : InstallState) : StartAction × InstallState :=
  if check_mods s = false then (.promptModUpdate, s)
  else if s.jdkFound = false then (.downloadJdk, s)
  else if s.serverJarFound = false then (.downloadJar, s)
  else if check_mods s = false then (.deadModCheck, s)
  else if s.description = none then (.promptDescription, s)
  else if (check_eula s.eula).1 = false then
    (.promptEula, { s with eula := (check_eula s.eula).2 })
  else (.launch, { s with eula := (check_eula s.eula).2 })

theorem start_server_launch (s : InstallState) (hm : check_mods s = true)
    (hj : s.jdkFound = true) (hsj : s.serverJarFound = true)
    (hd : s.description ≠ none) (he : s.eula = .lineTrue) :
    start_server s = (.launch, s) := by
  obtain ⟨mi, vm, jf, sjf, d, e⟩ := s
  simp only at hm hj hsj hd he
  subst hj hsj he
  unfold start_server
  simp [hm, hd, check_eula]

/-- C3: if one pass of the `start_server` check sequence reaches the launch
step (all checks satisfied), a second pass over the resulting state performs
zero downloads and again proceeds directly to launch without changing the
state. -/
theorem start_server_idempotent (s s2 : InstallState)
    (h : start_server s = (.launch, s2)) :
    start_server s2 = (.launch, s2) ∧ downloadsOf (start_server s2).1 = 0 := by
  unfold start_server at h
  split_ifs at h with h1 h2 h3 h4 h5 <;> simp only [Prod.mk.injEq] at h
  · exact absurd h.1 (by simp)
  · exact absurd h.1 (by simp)
  · exact absurd h.1 (by simp)
  · exact absurd h.1 (by simp)
  · exact absurd h.1 (by simp)
  · have he : s.eula = EulaState.lineTrue := by
      cases hc : s.eula
      · rw [hc] at h5; simp [check_eula] at h5
      · rw [hc] at h5; simp [check_eula] at h5
      · rfl
    have hs2 : s2 = { s with eula := EulaState.lineTrue } := by
      rw [← h.2, he]
      rfl
    have hres : start_server s2 = (.launch, s2) := by
      refine start_server_launch s2 ?_ ?_ ?_ ?_ ?_
      · rw [hs2]
        simp only [check_mods] at h1 ⊢
        simpa using h1
      · rw [hs2]
        simpa using h2
      · rw [hs2]
        simpa using h3
      · rw [hs2]
        simpa using h4
      · rw [hs2]
    refine ⟨hres, ?_⟩
    rw [hres]
    rfl

/-- Witness for C3 at a fully provisioned install state. -/
theorem start_server_idempotent_witness :
    start_server ⟨some "7", "7", true, true, some "world", .lineTrue⟩ =
      (.launch, ⟨some "7", "7", true, true, some "world", .lineTrue⟩) ∧
    start_server ⟨some "7", "7", true, true, some "world", .lineTrue⟩ =
      (.launch, ⟨some "7", "7", true, true, some "world", .lineTrue⟩) ∧
    downloadsOf (start_server ⟨some "7", "7", true, true, some "world", .lineTrue⟩).1 = 0 :=
  ⟨by decide,
   (start_server_idempotent ⟨some "7", "7", true, true, some "world", .lineTrue⟩
     ⟨some "7", "7", true, true, some "world", .lineTrue⟩ (by decide)).1,
   (start_server_idempotent ⟨some "7", "7", true, true, some "world", .lineTrue⟩
     ⟨some "7", "7", true, true, some "world", .lineTrue⟩ (by decide)).2⟩

/-! ## Mod-set reconciliation (fabric `start_server`, lines 436-475)

On a `check_mods` mismatch, `start_server` only shows a confirmation prompt
and returns (no filesystem change).  Confirmation runs `update_mod_list`:
wipe the mods directory, recreate it, then `next_mod` downloads one URL at a
time, each download's `on_success` re-entering `next_mod`; when the index
passes the end of the list, `finish_mod_download` writes `ap-version.json`
(persisting the new identifier).  A failed download never calls `next_mod`
again, so the chain stops without persisting. -/

/-- Filesystem/persistence events of the mod-update flow. -/
inductive ModEvent where
  | wipeModsDir
  | makeModsDir
  | downloadMod (url : String)
  | persistModInfo (id : String)
deriving DecidableEq, Repr

/-- fabric `next_mod` (lines 452-462) unrolled over the remaining URLs;
`ok url` tells whether the download of `url` succeeds. -/
def next_mod (ok : String → Bool) (newId : String) : List String → List ModEvent
  | [] => [.persistModInfo newId]
  | url :: rest =>
    .downloadMod url :: (if ok url then next_mod ok newId rest else [])

/-- fabric `update_mod_list` (lines 464-467): `rmtree(mods)`,
`makedirs(mods)`, then the `next_mod` chain. -/
def update_mod_list (ok : String → Bool) (newId : String)
    (mods : List String) : List ModEvent :=
  .wipeModsDir :: .makeModsDir :: next_mod ok newId mods

theorem next_mod_all_ok (ok : String → Bool) (newId : String) :
    ∀ mods : List String, (∀ u ∈ mods, ok u = true) →
      next_mod ok newId mods =
        mods.map ModEvent.downloadMod ++ [.persistModInfo newId] := by
  intro mods
  induction mods with
  | nil => intro _; rfl
  | cons url rest ih =>
    intro hall
    have hu : ok url = true := hall url (by simp)
    have hr : ∀ u ∈ rest, ok u = true := fun u hu2 => hall u (by simp [hu2])
    simp [next_mod, hu, ih hr]

theorem next_mod_persist_iff (ok : String → Bool) (newId : String) :
    ∀ mods : List String,
      (ModEvent.persistModInfo newId ∈ next_mod ok newId mods ↔
        ∀ u ∈ mods, ok u = true) := by
  intro mods
  induction mods with
  | nil => simp [next_mod]
  | cons url rest ih =>
    by_cases hu : ok url = true
    · simp [next_mod, hu, ih]
    · simp [next_mod, hu]

/-- C4: on a mod-set identifier mismatch `start_server` only prompts, leaving
the state untouched; after confirmation the flow wipes the mods directory,
downloads every mod URL one at a time in record order, and the new identifier
is persisted iff every mod download succeeded (and then only after the last
download). -/
theorem mod_update_flow :
    (∀ s : InstallState, check_mods s = false →
        start_server s = (.promptModUpdate, s)) ∧
    (∀ (ok : String → Bool) (newId : String) (mods : List String),
        (∀ u ∈ mods, ok u = true) →
        update_mod_list ok newId mods =
          .wipeModsDir :: .makeModsDir ::
            (mods.map ModEvent.downloadMod ++ [.persistModInfo newId])) ∧
    (∀ (ok : String → Bool) (newId : String) (mods : List String),
        ModEvent.persistModInfo newId ∈ update_mod_list ok newId mods ↔
          ∀ u ∈ mods, ok u = true) := by
  refine ⟨?_, ?_, ?_⟩
  · intro s hm
    unfold start_server
    simp [hm]
  · intro ok newId mods hall
    simp [update_mod_list, next_mod_all_ok ok newId mods hall]
  · intro ok newId mods
    simp only [update_mod_list, List.mem_cons]
    rw [next_mod_persist_iff]
    simp

/-- Witness for C4 at a concrete mismatch state and mod list. -/
theorem mod_update_flow_witness :
    start_server ⟨none, "7", true, true, none, .noLine⟩ =
      (.promptModUpdate, ⟨none, "7", true, true, none, .noLine⟩) ∧
    update_mod_list (fun _ => true) "7" ["u1", "u2"] =
      .wipeModsDir :: .makeModsDir ::
        (["u1", "u2"].map ModEvent.downloadMod ++ [.persistModInfo "7"]) :=
  ⟨mod_update_flow.1 ⟨none, "7", true, true, none, .noLine⟩ (by decide),
   mod_update_flow.2.1 (fun _ => true) "7" ["u1", "u2"] (by decide)⟩

/-! ## Session-file encoding (fabric `open_apmc`, lines 369-399;
minecraft `read_apmc_file`, lines 518-522)

Session files are text; we model their contents as the byte sequences of
their (ASCII) characters.  `open_apmc` dispatches on the first character:
`"e"` selects `json.loads(b64decode(data))` (every base64 encoding of a JSON
object starts with `e`, since `{` = 0x7B contributes the 6-bit group 30,
i.e. letter `e`), `"{"` selects `json.loads(data)`, and anything else leaves
`apmc` unbound (a `NameError`, modelled as `none`).  The `json` codec is
external to the repository and is passed in as the `loads` parameter. -/

/-- The base64 alphabet as byte values: `A`-`Z`, `a`-`z`, `0`-`9`, `+`, `/`. -/
def b64alphabet : List Nat :=
  (List.range 26).map (· + 65) ++ (List.range 26).map (· + 97) ++
    (List.range 10).map (· + 48) ++ [43, 47]

/-- Byte of the base64 digit with 6-bit value `n`. -/
def b64char (n : Nat) : Nat := b64alphabet.getD n 0

/-- 6-bit value of a base64 digit byte; `none` for non-alphabet bytes. -/
def b64val (b : Nat) : Option Nat := b64alphabet.findIdx? (· = b)

/-- The padding byte `=`. -/
def b64pad : Nat := 61

/-- Standard base64 encoding of a byte sequence (`base64.b64encode`). -/
def b64encode : List Nat → List Nat
  | b0 :: b1 :: b2 :: rest =>
    b64char (b0 / 4) :: b64char (b0 % 4 * 16 + b1 / 16) ::
      b64char (b1 % 16 * 4 + b2 / 64) :: b64char (b2 % 64) :: b64encode rest
  | [b0, b1] =>
    [b64char (b0 / 4), b64char (b0 % 4 * 16 + b1 / 16), b64char (b1 % 16 * 4), b64pad]
  | [b0] => [b64char (b0 / 4), b64char (b0 % 4 * 16), b64pad, b64pad]
  | [] => []

/-- Standard base64 decoding of a byte sequence (`base64.b64decode`);
`none` on malformed input. -/
def b64decode : List Nat → Option (List Nat)
  | [] => some []
  | c0 :: c1 :: c2 :: c3 :: rest =>
    match b64val c0, b64val c1 with
    | some v0, some v1 =>
      if c2 = b64pad then
        if c3 = b64pad ∧ rest = [] then some [v0 * 4 + v1 / 16] else none
      else
        match b64val c2 with
        | some v2 =>
          if c3 = b64pad then
            if rest = [] then some [v0 * 4 + v1 / 16, v1 % 16 * 16 + v2 / 4]
            else none
          else
            match b64val c3 with
            | some v3 =>
              (b64decode rest).map
                (fun tail => (v0 * 4 + v1 / 16) :: (v1 % 16 * 16 + v2 / 4) ::
                  (v2 % 4 * 64 + v3) :: tail)
            | none => none
        | none => none
    | _, _ => none
  | _ => none

theorem b64val_b64char : ∀ v : Fin 64, b64val (b64char v.val) = some v.val := by
  decide

theorem b64char_ne_pad : ∀ v : Fin 64, b64char v.val ≠ b64pad := by
  decide

theorem b64val_b64char_of_lt (v : Nat) (hv : v < 64) :
    b64val (b64char v) = some v :=
  b64val_b64char ⟨v, hv⟩

theorem b64char_ne_pad_of_lt (v : Nat) (hv : v < 64) : b64char v ≠ b64pad :=
  b64char_ne_pad ⟨v, hv⟩


theorem b64_roundtrip_aux :
    ∀ n : Nat, ∀ bs : List Nat, bs.length ≤ n → (∀ b ∈ bs, b < 256) →
      b64decode (b64encode bs) = some bs := by
  intro n
  induction n with
  | zero =>
    intro bs hlen _
    have hnil : bs = [] := List.length_eq_zero.mp (Nat.le_zero.mp hlen)
    subst hnil
    rfl
  | succ n ih =>
    intro bs hlen hbound
    rcases bs with _ | ⟨b0, _ | ⟨b1, _ | ⟨b2, rest⟩⟩⟩
    · rfl
    · have hb0 : b0 < 256 := hbound b0 (by simp)
      have h0 : b0 / 4 < 64 := by omega
      have h1 : b0 % 4 * 16 < 64 := by omega
      simp only [b64encode, b64decode, b64val_b64char_of_lt _ h0,
        b64val_b64char_of_lt _ h1]
      simp
      omega
    · have hb0 : b0 < 256 := hbound b0 (by simp)
      have hb1 : b1 < 256 := hbound b1 (by simp)
      have h0 : b0 / 4 < 64 := by omega
      have h1 : b0 % 4 * 16 + b1 / 16 < 64 := by omega
      have h2 : b1 % 16 * 4 < 64 := by omega
      have hc2 : ¬ b64char (b1 % 16 * 4) = b64pad := b64char_ne_pad_of_lt _ h2
      simp only [b64encode, b64decode, b64val_b64char_of_lt _ h0,
        b64val_b64char_of_lt _ h1, b64val_b64char_of_lt _ h2, hc2]
      simp
      omega
    · have hb0 : b0 < 256 := hbound b0 (by simp)
      have hb1 : b1 < 256 := hbound b1 (by simp)
      have hb2 : b2 < 256 := hbound b2 (by simp)
      have hrest : ∀ b ∈ rest, b < 256 := fun b hb => hbound b (by simp [hb])
      have hlen2 : rest.length ≤ n := by
        simp only [List.length_cons] at hlen
        omega
      have h0 : b0 / 4 < 64 := by omega
      have h1 : b0 % 4 * 16 + b1 / 16 < 64 := by omega
      have h2 : b1 % 16 * 4 + b2 / 64 < 64 := by omega
      have h3 : b2 % 64 < 64 := by omega
      have hc2 : ¬ b64char (b1 % 16 * 4 + b2 / 64) = b64pad :=
        b64char_ne_pad_of_lt _ h2
      have hc3 : ¬ b64char (b2 % 64) = b64pad := b64char_ne_pad_of_lt _ h3
      simp only [b64encode, b64decode, b64val_b64char_of_lt _ h0,
        b64val_b64char_of_lt _ h1, b64val_b64char_of_lt _ h2,
        b64val_b64char_of_lt _ h3, hc2, hc3]
      simp [ih rest hlen2 hrest]
      omega

theorem b64_roundtrip (bs : List Nat) (hbound : ∀ b ∈ bs, b < 256) :
    b64decode (b64encode bs) = some bs :=
  b64_roundtrip_aux bs.length bs (Nat.le_refl _) hbound

/-- fabric `open_apmc` decoding dispatch (lines 376-384; identical in
mcfabric lines 252-259): `data.startswith("e")` selects
`json.loads(b64decode(data))`, `data.startswith("{")` selects
`json.loads(data)`, and any other content leaves `apmc` unbound (a
`NameError`, modelled as `none`).  `loads` stands for the external
`json.loads`; byte `101` is `e`, byte `123` is `{`. -/
def open_apmc {D : Type} (loads : List Nat → Option D) (data : List Nat) :
    Option D :=
  match data with
  | [] => none
  | b :: _ =>
    if b = 101 then (b64decode data).bind loads
    else if b = 123 then loads data
    else none

/-- minecraft `read_apmc_file` (lines 518-522):
`json.loads(b64decode(f.read()))`, unconditionally base64. -/
def read_apmc_file {D : Type} (loads : List Nat → Option D)
    (data : List Nat) : Option D :=
  (b64decode data).bind loads

/-- The session-file writer, `MinecraftWorld.generate_output`
(`src/worlds/Minecraft Dig/__init__.py` line 94): the file content written is
`b64encode(bytes(json.dumps(data), 'utf-8'))`; `payload` stands for the
UTF-8 bytes of the external `json.dumps`. -/
def apmcEncode (payload : List Nat) : List Nat := b64encode payload

/-- `mc_update_output` (`src/worlds/Minecraft Dig/__init__.py` lines
112-116): decode the base64 session file, update the decoded dict (the
`server`/`port` assignment, represented by the external `update` function),
and re-encode in the base64 form. -/
def mc_update_output {D : Type} (loads : List Nat → Option D)
    (dumps : D → List Nat) (update : D → D) (raw : List Nat) :
    Option (List Nat) :=
  (b64decode raw).bind
    (fun bs => (loads bs).map (fun d => b64encode (dumps (update d))))

theorem b64encode_cons_head (b : Nat) (bs : List Nat) :
    ∃ l, b64encode (b :: bs) = b64char (b / 4) :: l := by
  rcases bs with _ | ⟨b1, _ | ⟨b2, rest⟩⟩
  · exact ⟨_, rfl⟩
  · exact ⟨_, rfl⟩
  · exact ⟨_, rfl⟩

/-- C5: for every descriptor whose JSON serialization round-trips through the
external `json` codec (`loads (dumps d) = some d`, serialized bytes below 256
and starting with `{`), reading the base64-encoded session file yields the
descriptor, reading the raw JSON session file yields the descriptor, and the
minecraft-variant reader also decodes the base64 form — i.e.
`decode (encode d) = d` across both supported encodings — and the
`mc_update_output` writer re-encodes an encoded file in the base64 form. -/
theorem apmc_decode_encode_roundtrip {D : Type} (loads : List Nat → Option D)
    (dumps : D → List Nat) (d : D)
    (hbytes : ∀ b ∈ dumps d, b < 256)
    (hhead : (dumps d).head? = some 123)
    (hloads : loads (dumps d) = some d) :
    open_apmc loads (apmcEncode (dumps d)) = some d ∧
    open_apmc loads (dumps d) = some d ∧
    read_apmc_file loads (apmcEncode (dumps d)) = some d ∧
    mc_update_output loads dumps (fun x => x) (apmcEncode (dumps d)) =
      some (apmcEncode (dumps d)) := by
  rcases hj : dumps d with _ | ⟨b, t⟩
  · rw [hj] at hhead
    simp at hhead
  · rw [hj] at hhead
    simp only [List.head?_cons, Option.some.injEq] at hhead
    subst hhead
    have hdec : b64decode (b64encode (123 :: t)) = some (123 :: t) := by
      rw [← hj]
      exact b64_roundtrip (dumps d) hbytes
    have hloads2 : loads (123 :: t) = some d := by
      rw [← hj]
      exact hloads
    refine ⟨?_, ?_, ?_, ?_⟩
    · obtain ⟨l, hl⟩ := b64encode_cons_head 123 t
      have hc : b64char (123 / 4) = 101 := by decide
      have hdisp : open_apmc loads (101 :: l) = (b64decode (101 :: l)).bind loads := by
        simp [open_apmc]
      rw [apmcEncode, hl, hc, hdisp, ← hc, ← hl, hdec]
      simp [hloads2]
    · simp only [open_apmc]
      have : ¬ (123 : Nat) = 101 := by decide
      simp [this, hloads2]
    · obtain ⟨l, hl⟩ := b64encode_cons_head 123 t
      rw [apmcEncode, read_apmc_file, hdec]
      simp [hloads2]
    · simp only [mc_update_output, apmcEncode, hj, hdec, Option.some_bind]
      simp [hloads2, hj]

/-- Witness for C5 with the two-byte JSON text `{}` and a one-point codec. -/
theorem apmc_decode_encode_roundtrip_witness :
    open_apmc (fun bs => if bs = [123, 125] then some 42 else none)
        (apmcEncode [123, 125]) = some 42 ∧
    open_apmc (fun bs => if bs = [123, 125] then some 42 else none)
        [123, 125] = some 42 :=
  ⟨(apmc_decode_encode_roundtrip
      (fun bs => if bs = [123, 125] then some 42 else none)
      (fun _ : Nat => [123, 125]) 42 (by decide) (by decide) (by decide)).1,
   (apmc_decode_encode_roundtrip
      (fun bs => if bs = [123, 125] then some 42 else none)
      (fun _ : Nat => [123, 125]) 42 (by decide) (by decide) (by decide)).2.1⟩

/-! ## Redirect resolution

fabric `Downloader._download_redirect` (lines 138-146): a `Location` starting
with `/` is resolved against `f"{old_url.scheme}://{old_url.netloc}"`, any
other `Location` is used as-is; `self.url` is replaced and `self._download()`
restarts the same `Downloader`.  mcfabric `server_jar_redirect`
(lines 313-317) always prepends the previous scheme and host, with no
relative/absolute distinction.  `scheme`/`netloc` are the fields `urlparse`
extracts from the previous request URL. -/

/-- The job fields of a fabric `Downloader` relevant to a fetch. -/
structure DownloadJob where
  url : List Char
  folder : List Char
  fileName : Option (List Char)
  extract : Bool
deriving DecidableEq, Repr

/-- fabric `_download_redirect` URL computation:
`if loc.startswith("/"): url = f"{scheme}://{netloc}{loc}" else: url = loc`. -/
def download_redirect_url (scheme netloc loc : List Char) : List Char :=
  if loc.head? = some '/' then scheme ++ (':' :: '/' :: '/' :: (netloc ++ loc))
  else loc

/-- fabric `_download_redirect` effect on the job: only `url` is replaced. -/
def download_redirect_job (job : DownloadJob) (scheme netloc loc : List Char) :
    DownloadJob :=
  { job with url := download_redirect_url scheme netloc loc }

/-- mcfabric `server_jar_redirect`: `url = f"{scheme}://{netloc}{loc}"`,
unconditionally. -/
def server_jar_redirect_url (scheme netloc loc : List Char) : List Char :=
  scheme ++ (':' :: '/' :: '/' :: (netloc ++ loc))

/-- C6 counterexample: in the mcfabric variant an absolute `Location` is not
used as-is — the previous scheme and host are prepended to it. -/
theorem server_jar_redirect_absolute_counterexample :
    ¬ server_jar_redirect_url "https".data "a.example".data
        "http://other.example/x".data = "http://other.example/x".data ∧
    server_jar_redirect_url "https".data "a.example".data
        "http://other.example/x".data =
      "https://a.examplehttp://other.example/x".data := by
  constructor
  · decide
  · decide

/-- C6 (amended): the fabric `Downloader` resolves a root-relative `Location`
against the previous request's scheme and host and uses any other `Location`
as-is, replacing only the job's URL field (same job identity); the mcfabric
`server_jar_redirect` always prepends the previous scheme and host to the
`Location`, which is correct only for root-relative redirects. -/
theorem download_redirect_resolution :
    (∀ (job : DownloadJob) (scheme netloc loc : List Char),
        loc.head? = some '/' →
        download_redirect_job job scheme netloc loc =
          { job with url := scheme ++ (':' :: '/' :: '/' :: (netloc ++ loc)) }) ∧
    (∀ (job : DownloadJob) (scheme netloc loc : List Char),
        loc.head? ≠ some '/' →
        download_redirect_job job scheme netloc loc = { job with url := loc }) ∧
    (∀ (job : DownloadJob) (scheme netloc loc : List Char),
        (download_redirect_job job scheme netloc loc).folder = job.folder ∧
        (download_redirect_job job scheme netloc loc).fileName = job.fileName ∧
        (download_redirect_job job scheme netloc loc).extract = job.extract) ∧
    (∀ scheme netloc loc : List Char,
        server_jar_redirect_url scheme netloc loc =
          scheme ++ (':' :: '/' :: '/' :: (netloc ++ loc))) := by
  refine ⟨?_, ?_, ?_, fun scheme netloc loc => rfl⟩
  · intro job scheme netloc loc h
    simp [download_redirect_job, download_redirect_url, h]
  · intro job scheme netloc loc h
    simp [download_redirect_job, download_redirect_url, h]
  · intro job scheme netloc loc
    exact ⟨rfl, rfl, rfl⟩

/-- Witness for C6 at concrete relative and absolute Location values. -/
theorem download_redirect_resolution_witness :
    download_redirect_job ⟨"https://a.example/old".data, "srv".data, none, false⟩
        "https".data "a.example".data "/new/path".data =
      ⟨"https://a.example/new/path".data, "srv".data, none, false⟩ ∧
    download_redirect_job ⟨"https://a.example/old".data, "srv".data, none, false⟩
        "https".data "a.example".data "http://cdn.example/f".data =
      ⟨"http://cdn.example/f".data, "srv".data, none, false⟩ := by
  constructor
  · rw [download_redirect_resolution.1 _ "https".data "a.example".data
      "/new/path".data (by decide)]
    decide
  · rw [download_redirect_resolution.2.1 _ "https".data "a.example".data
      "http://cdn.example/f".data (by decide)]

/-! ## Zip extraction paths

fabric `Downloader._extract` (lines 179-208): builds
`file_list = [name for name in archive.namelist() if not
archive.getinfo(name).is_dir()]` and, for each entry,
`file_path = list(filter(bool, full_name.split("/")))` and
`target_path = os.path.join(self.folder, *file_path)`, creating
`os.path.dirname(target_path)` with `os.makedirs(..., exist_ok=True)` just
before writing.  No path component is removed.

minecraft `download_jdk` (lines 389-409): skips directory entries with
`continue`, computes the same filtered split, then `del file_path[0]`
(stripping the archive root folder; on macOS two further components are
dropped when the second remaining one is `Home`), and joins under the
version-tagged jdk directory.  Target paths are modelled as their component
lists (destination first). -/

/-- Python `str.split("/")`. -/
def splitSlash : List Char → List (List Char)
  | [] => [[]]
  | c :: cs =>
    match splitSlash cs with
    | [] => [[]]
    | h :: t => if c = '/' then [] :: h :: t else (c :: h) :: t

/-- `list(filter(bool, full_name.split("/")))`: the non-empty components. -/
def pathParts (name : List Char) : List (List Char) :=
  (splitSlash name).filter (fun p => !p.isEmpty)

/-- A zip entry: its name and whether `getinfo(name).is_dir()`. -/
structure ZipEntry where
  name : List Char
  dirEntry : Bool
deriving DecidableEq, Repr

/-- fabric `_extract`: the target component list written for each
non-directory entry, in archive order. -/
def extract_targets (folder : List Char) (entries : List ZipEntry) :
    List (List (List Char)) :=
  (entries.filter (fun e => !e.dirEntry)).map (fun e => folder :: pathParts e.name)

/-- fabric `_extract`: the directory created (`os.makedirs(target_dir,
exist_ok=True)`) just before each write — the dirname of each target. -/
def extract_mkdirs (folder : List Char) (entries : List ZipEntry) :
    List (List (List Char)) :=
  (entries.filter (fun e => !e.dirEntry)).map
    (fun e => (folder :: pathParts e.name).dropLast)

/-- minecraft `download_jdk` per-entry target: `none` for skipped entries
(directory entries; on macOS also entries outside the `Home` subtree; an
out-of-range component index, which would raise `IndexError` in the source,
is also modelled as `none`). -/
def download_jdk_target (isMacos : Bool) (jdkDir : List Char) (e : ZipEntry) :
    Option (List (List Char)) :=
  if e.dirEntry then none
  else
    match pathParts e.name with
    | [] => none
    | _ :: rest =>
      if isMacos then
        match rest[1]? with
        | some h => if h = "Home".data then some (jdkDir :: rest.drop 2) else none
        | none => none
      else some (jdkDir :: rest)

/-- minecraft `download_jdk`: the targets written over all entries. -/
def download_jdk_writes (isMacos : Bool) (jdkDir : List Char)
    (entries : List ZipEntry) : List (List (List Char)) :=
  entries.filterMap (download_jdk_target isMacos jdkDir)

/-- The claim's description of an extraction target: the first path
component (the archive root folder) stripped before writing under the
destination folder. -/
def claimedStripTarget (folder : List Char) (name : List Char) :
    List (List Char) :=
  folder :: (pathParts name).tail

/-- C7 counterexample: the fabric `Downloader._extract` does not strip the
archive root folder — the entry `root/bin/java` is written to
`srv/root/bin/java`, not `srv/bin/java`. -/
theorem extract_keeps_root_counterexample :
    extract_targets "srv".data [⟨"root/bin/java".data, false⟩] =
      [["srv".data, "root".data, "bin".data, "java".data]] ∧
    claimedStripTarget "srv".data "root/bin/java".data =
      ["srv".data, "bin".data, "java".data] ∧
    ¬ extract_targets "srv".data [⟨"root/bin/java".data, false⟩] =
        [claimedStripTarget "srv".data "root/bin/java".data] := by
  refine ⟨by decide, by decide, by decide⟩

/-- C7 (amended): directory-only entries are skipped and parent directories
are created lazily (per entry, as its dirname) in both extractors; the
minecraft `download_jdk` strips the first path component of every entry
before writing under the jdk directory, while the fabric
`Downloader._extract` keeps the full (empty-component-filtered) entry path
under the destination folder. -/
theorem zip_extraction_paths :
    (∀ (folder : List Char) (e : ZipEntry), e.dirEntry = false →
        extract_targets folder [e] = [folder :: pathParts e.name]) ∧
    (∀ (folder : List Char) (e : ZipEntry), e.dirEntry = true →
        extract_targets folder [e] = []) ∧
    (∀ (folder : List Char) (entries : List ZipEntry),
        extract_mkdirs folder entries =
          (extract_targets folder entries).map List.dropLast) ∧
    (∀ (jdkDir : List Char) (e : ZipEntry) (p0 : List Char)
        (rest : List (List Char)), e.dirEntry = false →
        pathParts e.name = p0 :: rest →
        download_jdk_target false jdkDir e = some (jdkDir :: rest)) ∧
    (∀ (m : Bool) (jdkDir : List Char) (e : ZipEntry), e.dirEntry = true →
        download_jdk_target m jdkDir e = none) := by
  refine ⟨?_, ?_, ?_, ?_, ?_⟩
  · intro folder e h
    simp [extract_targets, h]
  · intro folder e h
    simp [extract_targets, h]
  · intro folder entries
    simp [extract_mkdirs, extract_targets]
  · intro jdkDir e p0 rest hdir hparts
    simp [download_jdk_target, hdir, hparts]
  · intro m jdkDir e h
    simp [download_jdk_target, h]

/-- Witness for C7 at the concrete entry `corretto/bin/java` plus a
directory entry. -/
theorem zip_extraction_paths_witness :
    extract_targets "srv".data [⟨"corretto/bin/java".data, false⟩] =
      ["srv".data :: pathParts "corretto/bin/java".data] ∧
    extract_targets "srv".data [⟨"corretto/bin/".data, true⟩] = [] ∧
    download_jdk_target false "jdk17".data ⟨"corretto/bin/java".data, false⟩ =
      some ["jdk17".data, "bin".data, "java".data] ∧
    download_jdk_target true "jdk17".data ⟨"corretto/bin/".data, true⟩ = none :=
  ⟨zip_extraction_paths.1 "srv".data ⟨"corretto/bin/java".data, false⟩ rfl,
   zip_extraction_paths.2.1 "srv".data ⟨"corretto/bin/".data, true⟩ rfl,
   zip_extraction_paths.2.2.2.1 "jdk17".data ⟨"corretto/bin/java".data, false⟩
     "corretto".data ["bin".data, "java".data] rfl (by decide),
   zip_extraction_paths.2.2.2.2 true "jdk17".data ⟨"corretto/bin/".data, true⟩ rfl⟩

/-! ## Sending commands to the child process

fabric `send_command` (lines 629-634):
`try: self.server.stdin.write(f'{cmd}\n'); self.server.stdin.flush()
except Exception: pass` — every failure is swallowed.
mcfabric `send_command` (lines 492-497) instead has
`except AttributeError: sys.exit()` — an `AttributeError` (e.g.
`self.server` is `None` because no server was ever started) terminates the
whole client process, and any other exception propagates to the caller. -/

/-- The exceptions the two handlers distinguish. -/
inductive PyExc where
  | attributeError
  | other
deriving DecidableEq, Repr

/-- Outcome of the underlying `stdin.write`/`flush` pair. -/
inductive WriteOutcome where
  | ok
  | raises (e : PyExc)
deriving DecidableEq, Repr

/-- What the caller of `send_command` observes. -/
inductive CallResult where
  | returned
  | exitsProcess
  | raised (e : PyExc)
deriving DecidableEq, Repr

/-- The payload handed to `stdin.write`: `f'{cmd}\n'`. -/
def send_payload (cmd : List Char) : List Char := cmd ++ ['\n']

/-- fabric `send_command` exception behaviour. -/
def send_command (o : WriteOutcome) : CallResult :=
  match o with
  | .ok => .returned
  | .raises _ => .returned

/-- mcfabric `send_command` exception behaviour. -/
def send_command_mcfabric (o : WriteOutcome) : CallResult :=
  match o with
  | .ok => .returned
  | .raises .attributeError => .exitsProcess
  | .raises e => .raised e

/-- C8 counterexample: in the mcfabric variant, sending a command while the
process was never started (an `AttributeError` from `None.stdin`) calls
`sys.exit()`, terminating the whole client process instead of failing
silently. -/
theorem send_command_mcfabric_exits_counterexample :
    send_command_mcfabric (.raises .attributeError) = .exitsProcess ∧
    CallResult.exitsProcess ≠ CallResult.returned := by
  refine ⟨rfl, by decide⟩

/-- C8 (amended): `send_command` writes the command followed by a newline
(and flushes); the fabric variant returns normally on every write outcome —
no exception propagates and the client process is never terminated — while
the mcfabric variant exits the whole process on `AttributeError` and
propagates every other exception. -/
theorem send_command_failure_handling :
    (∀ cmd : List Char, send_payload cmd = cmd ++ ['\n']) ∧
    (∀ o : WriteOutcome, send_command o = .returned) ∧
    send_command_mcfabric .ok = .returned ∧
    send_command_mcfabric (.raises .attributeError) = .exitsProcess ∧
    send_command_mcfabric (.raises .other) = .raised .other := by
  refine ⟨fun cmd => rfl, ?_, rfl, rfl, rfl⟩
  intro o
  rcases o with _ | e
  · rfl
  · rfl

/-! ## Stream-reader workers

fabric/mcfabric `stream_server_output` (fabric lines 653-662):
`text = pipe.readline().rstrip().expandtabs(); if text:
queue.put_nowait(text)`.  minecraft `stream_minecraft_output`
(lines 224-235): `text = pipe.readline().strip()`; same guard.
`rstrip`/`strip` remove trailing/surrounding whitespace
(space, `\t`, `\n`, `\r`, `\x0b`, `\x0c`); `expandtabs` pads each tab to the
next multiple of 8 columns, resetting the column at `\n`/`\r`. -/

/-- The (ASCII) whitespace set of Python `str.strip`. -/
def isPySpace (c : Char) : Bool :=
  c = ' ' || c = '\t' || c = '\n' || c = '\r' ||
    c = Char.ofNat 11 || c = Char.ofNat 12

/-- Python `str.rstrip()`. -/
def pyRstrip (l : List Char) : List Char :=
  (l.reverse.dropWhile isPySpace).reverse

/-- Python `str.strip()`. -/
def pyStrip (l : List Char) : List Char :=
  (pyRstrip l).dropWhile isPySpace

/-- Python `str.expandtabs()` with the default tab size 8, tracking the
current column. -/
def pyExpandtabs : List Char → Nat → List Char
  | [], _ => []
  | c :: cs, col =>
    if c = '\t' then List.replicate (8 - col % 8) ' ' ++ pyExpandtabs cs 0
    else if c = '\n' || c = '\r' then c :: pyExpandtabs cs 0
    else c :: pyExpandtabs cs (col + 1)

/-- fabric `stream_server_output`: the message enqueued for one raw line
(`none` when the guard rejects it). -/
def stream_server_output_enqueue (line : List Char) : Option (List Char) :=
  if pyExpandtabs (pyRstrip line) 0 = [] then none
  else some (pyExpandtabs (pyRstrip line) 0)

/-- minecraft `stream_minecraft_output`: the message enqueued for one raw
line. -/
def stream_minecraft_output_enqueue (line : List Char) : Option (List Char) :=
  if pyStrip line = [] then none else some (pyStrip line)

/-- C9 counterexample: the fabric worker does not strip surrounding
whitespace — only trailing whitespace is removed, so the line `" a\n"` is
enqueued as `" a"`, not as the fully stripped `"a"`. -/
theorem stream_enqueue_leading_space_counterexample :
    stream_server_output_enqueue (' ' :: 'a' :: ['\n']) = some [' ', 'a'] ∧
    pyStrip (' ' :: 'a' :: ['\n']) = ['a'] ∧
    ¬ ([' ', 'a'] : List Char) = ['a'] := by
  refine ⟨by decide, by decide, by decide⟩

/-- C9 (amended): every message a stream-reader worker enqueues is
non-empty: the fabric variants enqueue `expandtabs(rstrip(line))` and the
minecraft variant `strip(line)`, in each case only when the result is
non-empty, so the classification loop never dequeues an empty message
(though the fabric variants keep leading whitespace). -/
theorem stream_enqueue_nonempty :
    (∀ (line m : List Char), stream_server_output_enqueue line = some m →
        m ≠ [] ∧ m = pyExpandtabs (pyRstrip line) 0) ∧
    (∀ (line m : List Char), stream_minecraft_output_enqueue line = some m →
        m ≠ [] ∧ m = pyStrip line) := by
  constructor
  · intro line m h
    unfold stream_server_output_enqueue at h
    split_ifs at h with ht
    all_goals first
      | exact Option.noConfusion h
      | (injection h with h2; subst h2; exact ⟨ht, rfl⟩)
  · intro line m h
    unfold stream_minecraft_output_enqueue at h
    split_ifs at h with ht
    all_goals first
      | exact Option.noConfusion h
      | (injection h with h2; subst h2; exact ⟨ht, rfl⟩)

/-- Witness for C9 at the concrete line `"\thello \n"`. -/
theorem stream_enqueue_nonempty_witness :
    ((List.replicate 8 ' ' ++ "hello".data) ≠ [] ∧
      List.replicate 8 ' ' ++ "hello".data =
        pyExpandtabs (pyRstrip ('\t' :: "hello \n".data)) 0) ∧
    ("hello".data ≠ [] ∧ "hello".data = pyStrip ('\t' :: "hello \n".data)) :=
  ⟨stream_enqueue_nonempty.1 ('\t' :: "hello \n".data)
      (List.replicate 8 ' ' ++ "hello".data) (by decide),
   stream_enqueue_nonempty.2 ('\t' :: "hello \n".data) "hello".data (by decide)⟩

/-! ## format_bytes (fabric lines 75-77; identical in mcfabric lines 72-74)

`power = 0 if size <= 0 else floor(log(size, 1024))`, then
`['B', 'KB', 'MB', 'GB', 'TB'][int(power)]`.  The source computes the
logarithm with `math.log` in IEEE double precision; that rounding is not
part of this embedding, so `format_bytes_power` below is the **exact**
unit index `floor(log_1024 size)` (`Nat.log`).  The two differ: for the
sizes `1024^5 - 3`, `1024^5 - 2` and `1024^5 - 1` CPython rounds
`log(size, 1024)` up to `5.0`, so the real program indexes the five-entry
unit table at 5 and raises `IndexError` even though the exact index is 4. -/

/-- The unit-index computation of `format_bytes`, with the logarithm taken
exactly (`Nat.log`) instead of the source's double-precision
`floor(math.log(size, 1024))` — see the section comment for where the two
disagree. -/
def format_bytes_power (size : Int) : Nat :=
  if size ≤ 0 then 0 else Nat.log 1024 size.toNat

/-- `['B', 'KB', 'MB', 'GB', 'TB']`. -/
def byteUnits : List String := ["B", "KB", "MB", "GB", "TB"]

/-- The unit `format_bytes` selects; `none` would be Python's `IndexError`. -/
def format_bytes_unit (size : Int) : Option String :=
  byteUnits[format_bytes_power size]?

/-- C10: the failing input `1024^5 - 1` satisfies the claim's precondition
`0 ≤ size < 1024^5`; the claimed unit index `floor(log_1024 size)` is 4 and
the table lookup yields `"TB"` (and sizes `≤ 0` map to index 0).  The
source's double-precision `floor(math.log(size, 1024))` instead evaluates to
5 there (likewise at `1024^5 - 3` and `1024^5 - 2`), so the real
`format_bytes` raises `IndexError` inside the claimed precondition. -/
theorem format_bytes_boundary_intended :
    (0 : Int) ≤ 1125899906842623 ∧ (1125899906842623 : Int) < 1024 ^ 5 ∧
    format_bytes_power 1125899906842623 = 4 ∧
    format_bytes_unit 1125899906842623 = some "TB" ∧
    format_bytes_power 0 = 0 ∧ format_bytes_power (-5) = 0 := by
  have hlog : Nat.log 1024 1125899906842623 = 4 := by
    apply Nat.log_eq_of_pow_le_of_lt_pow
    · norm_num
    · norm_num
  have hp : format_bytes_power 1125899906842623 = 4 := by
    unfold format_bytes_power
    rw [if_neg (by norm_num)]
    simpa using hlog
  refine ⟨by norm_num, by norm_num, hp, ?_, by decide, by decide⟩
  simp [format_bytes_unit, hp, byteUnits]
